import Mathlib

/-!
Shallow embedding of the one-time secret service (`app/main.py`,
`app/models.py`, `app/schemas.py`) of the repository under verification.

The durable store (PostgreSQL via SQLAlchemy) is modelled as a list of
`SecretRec` rows, the fast-path cache (Redis) as an association list from
retrieval key to `CacheEntry` (the constant `secret:` namespace prefix added
to every Redis key in the source is a bijective renaming and is dropped),
and the audit table `secret_logs` as a list of `LogEntry`.  Machine time
(`datetime.utcnow()`) is passed explicitly as an integer timestamp.
-/

namespace SecretService

/-- Modelled from the spec: `app/crypto.py` is not under `src/` (only its
callers are).  Spec 4.3 requires `encrypt` to be a deterministic reversible
transform; a JWT carrying the single claim `secret` is modelled as a wrapper
holding that claim. -/
structure JWToken where
  secret_claim : String
deriving Repr, DecidableEq

/-- Modelled from the spec: `crypto.create_access_token({"secret": s})`,
the reversible encryption of the payload at rest (spec 4.3 `encrypt`). -/
def create_access_token (s : String) : JWToken := ⟨s⟩

/-- Modelled from the spec: `jwt.decode(..)["secret"]`, the inverse
transform (spec 4.3 `decrypt`). -/
def jwt_decode_secret (t : JWToken) : String := t.secret_claim

/-- Modelled from the spec: `crypto.get_password_hash` (spec 4.3
`hashPassphrase`), a deterministic one-way hash; modelled as an injective
tagging so that verification can be modelled faithfully. -/
def get_password_hash (p : String) : String := "hash$" ++ p

/-- Modelled from the spec: `crypto.verify_password(candidate, hash)`
(spec 4.3 `verifyPassphrase`); an absent candidate never verifies. -/
def verify_password (candidate : Option String) (h : String) : Bool :=
  match candidate with
  | some p => get_password_hash p == h
  | none => false

/-- Python truthiness of an optional string (`if secret_data.passphrase`,
`bool(passphrase)`): `None` and the empty string are falsy. -/
def truthyOptStr : Option String → Bool
  | some s => s ≠ ""
  | none => false

/-- A row of the `secrets` table (`app/models.py`, class `Secret`).
`is_accessed` / `is_deleted` are `Integer` columns defaulting to 0. -/
structure SecretRec where
  id : Nat
  secret_key : String
  encrypted_secret : JWToken
  passphrase_hash : Option String
  expires_at : Option Int
  is_accessed : Nat
  is_deleted : Nat
deriving Repr, DecidableEq

/-- The JSON document stored in Redis by `create_secret`
(`app/main.py` lines 64-72). -/
structure CacheEntry where
  secret : String
  passphrase : Option String
  expires_at : Option Int
deriving Repr, DecidableEq

/-- A row of the `secret_logs` table (`app/models.py`, class `SecretLog`);
`created_at` is a server-side default and is not modelled. -/
structure LogEntry where
  secret_id : Nat
  action : String
  ip_address : String
  log_metadata : Option String
deriving Repr, DecidableEq

/-- The whole mutable state: durable store, Redis cache, audit table. -/
structure SysState where
  secrets : List SecretRec
  cache : List (String × CacheEntry)
  logs : List LogEntry
deriving Repr, DecidableEq

/-- Redis `redis_client.get(key)`. -/
def redisGet (c : List (String × CacheEntry)) (k : String) : Option CacheEntry :=
  (c.find? (fun p => p.1 == k)).map Prod.snd

/-- Redis `redis_client.delete(key)`. -/
def redisDelete (c : List (String × CacheEntry)) (k : String) :
    List (String × CacheEntry) :=
  c.filter (fun p => p.1 != k)

/-- Redis `redis_client.setex(key, ttl, value)`: overwrite-insert.  The fixed
300-second Redis TTL only bounds how long the entry stays alive; its
spontaneous expiry is external to the state transitions modelled here. -/
def redisSetex (c : List (String × CacheEntry)) (k : String) (e : CacheEntry) :
    List (String × CacheEntry) :=
  (k, e) :: redisDelete c k

/-- Row predicate of the read-path query (`app/main.py` lines 105-109):
`secret_key == k AND is_accessed == 0 AND is_deleted == 0`. -/
def activeP (k : String) (r : SecretRec) : Bool :=
  r.secret_key == k && r.is_accessed == 0 && r.is_deleted == 0

/-- Query `db.query(Secret).filter(secret_key == k, is_accessed == 0,
is_deleted == 0).first()`. -/
def fetchActive (l : List SecretRec) (k : String) : Option SecretRec :=
  l.find? (activeP k)

/-- Row predicate of the delete-path query (`app/main.py` lines 145-148):
`secret_key == k AND is_deleted == 0`. -/
def nonDeletedP (k : String) (r : SecretRec) : Bool :=
  r.secret_key == k && r.is_deleted == 0

/-- Query `db.query(Secret).filter(secret_key == k, is_deleted == 0).first()`. -/
def fetchNonDeleted (l : List SecretRec) (k : String) : Option SecretRec :=
  l.find? (nonDeletedP k)

/-- Overwrite the row with the given row's primary key (`db.commit()` after
mutating a fetched ORM object). -/
def updateSecret (l : List SecretRec) (s : SecretRec) : List SecretRec :=
  l.map (fun x => if x.id == s.id then s else x)

/-- Test `if db_secret.expires_at and db_secret.expires_at < datetime.utcnow()`
(`app/main.py` line 114); a `datetime` object is always truthy, so the test
is: an expiry is present and strictly in the past. -/
def isExpired (expires_at : Option Int) (now : Int) : Bool :=
  match expires_at with
  | some t => decide (t < now)
  | none => false

/-- Lines 47-50 of `app/main.py`: `expires_at = None`, then
`if secret_data.ttl_seconds: expires_at = utcnow() + timedelta(seconds=ttl)`.
The truthiness test means any nonzero integer (also a negative one) yields
an expiry, while `None` and `0` do not. -/
def computeExpiry (ttl_seconds : Option Int) (now : Int) : Option Int :=
  match ttl_seconds with
  | some n => if n ≠ 0 then some (now + n) else none
  | none => none

/-- Metadata serialized into the `create` audit entry
(`app/main.py` lines 79-82). -/
def createMeta (ttl_seconds : Option Int) (hasPass : Bool) : String :=
  "ttl_seconds=" ++ toString ttl_seconds ++ ";has_passphrase=" ++ toString hasPass

/-- The `secrets` row inserted by `create_secret`
(`app/main.py` lines 53-61). -/
def createdRow (k : String) (newId : Nat) (secret : String)
    (passphrase : Option String) (ttl_seconds : Option Int) (now : Int) :
    SecretRec :=
  { id := newId
    secret_key := k
    encrypted_secret := create_access_token secret
    passphrase_hash :=
      if truthyOptStr passphrase then some (get_password_hash (passphrase.getD "")) else none
    expires_at := computeExpiry ttl_seconds now
    is_accessed := 0
    is_deleted := 0 }

/-- Endpoint `POST /secret` (`app/main.py`, `create_secret`).  The generated UUID key
and the autoincrement row id are passed in as parameters `k`, `newId`. -/
def create_secret (st : SysState) (k : String) (newId : Nat)
    (secret : String) (passphrase : Option String) (ttl_seconds : Option Int)
    (now : Int) (ip : String) : String × SysState :=
  let entry : CacheEntry :=
    { secret := secret, passphrase := passphrase
      expires_at := computeExpiry ttl_seconds now }
  (k,
   { secrets := st.secrets ++ [createdRow k newId secret passphrase ttl_seconds now]
     cache := redisSetex st.cache k entry
     logs := st.logs ++
       [{ secret_id := newId, action := "create", ip_address := ip
          log_metadata := some (createMeta ttl_seconds (truthyOptStr passphrase)) }] })

/-- Endpoint `GET /secret/` + key (`app/main.py`, `read_secret`).  Returns the
HTTP outcome (`ok` body or `error (status, detail)`) and the new state. -/
def read_secret (st : SysState) (k : String) (now : Int) (ip : String) :
    Except (Nat × String) String × SysState :=
  match redisGet st.cache k with
  | some e =>
      (Except.ok e.secret, { st with cache := redisDelete st.cache k })
  | none =>
      match fetchActive st.secrets k with
      | none => (Except.error (404, "Secret not found or already accessed"), st)
      | some s =>
          if isExpired s.expires_at now then
            (Except.error (404, "Secret has expired"), st)
          else
            (Except.ok (jwt_decode_secret s.encrypted_secret),
             { st with
                 secrets := updateSecret st.secrets { s with is_accessed := 1 }
                 logs := st.logs ++
                   [{ secret_id := s.id, action := "read", ip_address := ip
                      log_metadata := none }] })

/-- Endpoint `DELETE /secret/` + key (`app/main.py`, `delete_secret`).  The
Redis eviction happens before any check, so it occurs even on 404/403. -/
def delete_secret (st : SysState) (k : String) (passphrase : Option String)
    (ip : String) : Except (Nat × String) String × SysState :=
  let st0 : SysState := { st with cache := redisDelete st.cache k }
  match fetchNonDeleted st0.secrets k with
  | none => (Except.error (404, "Secret not found or already deleted"), st0)
  | some s =>
      if truthyOptStr s.passphrase_hash &&
         !(verify_password passphrase (s.passphrase_hash.getD "")) then
        (Except.error (403, "Invalid passphrase"), st0)
      else
        (Except.ok "secret_deleted",
         { st0 with
             secrets := updateSecret st0.secrets { s with is_deleted := 1 }
             logs := st0.logs ++
               [{ secret_id := s.id, action := "delete", ip_address := ip
                  log_metadata := some ("used_passphrase=" ++ toString (truthyOptStr passphrase)) }] })

/-- One client request, for reasoning about arbitrary interleaved traffic. -/
inductive Op where
  | create (k : String) (newId : Nat) (secret : String)
      (passphrase : Option String) (ttl_seconds : Option Int) (now : Int) (ip : String)
  | read (k : String) (now : Int) (ip : String)
  | delete (k : String) (passphrase : Option String) (ip : String)
deriving Repr, DecidableEq

/-- State effect of one request. -/
def step (st : SysState) : Op → SysState
  | .create k newId secret passphrase ttl now ip =>
      (create_secret st k newId secret passphrase ttl now ip).2
  | .read k now ip => (read_secret st k now ip).2
  | .delete k passphrase ip => (delete_secret st k passphrase ip).2

/-- Run a sequence of requests. -/
def run (st : SysState) : List Op → SysState
  | [] => st
  | op :: ops => run (step st op) ops

/-- Whether a request is a `create` for the given key (fresh UUID keys never
collide with an existing one; the store's unique index would reject it). -/
def opCreatesKey : Op → String → Bool
  | .create k' _ _ _ _ _ _, k => k' == k
  | _, _ => false

/-- Key consumption: no read of `k` can ever succeed again — no cache entry and no
store row passing the read-path filter. -/
def readGone (st : SysState) (k : String) : Prop :=
  redisGet st.cache k = none ∧ fetchActive st.secrets k = none

/-- The `secret_key` column has a unique index (`app/models.py`). -/
def uniqueKeys (l : List SecretRec) : Prop :=
  l.Pairwise (fun a b => a.secret_key ≠ b.secret_key)

/-- Column `id` is the primary key (`app/models.py`). -/
def uniqueIds (l : List SecretRec) : Prop :=
  l.Pairwise (fun a b => a.id ≠ b.id)

end SecretService

namespace SecretService

/-! ### Helper lemmas -/

lemma find?_cons_eq_none {α} (p : α → Bool) (a : α) (t : List α)
    (h : (a :: t).find? p = none) : p a = false ∧ t.find? p = none := by
  cases hp : p a with
  | true => simp [List.find?, hp] at h
  | false => simp [List.find?, hp] at h; exact ⟨rfl, List.find?_eq_none.mpr (fun x hx => by simp [h x hx])⟩

lemma find?_append_of_none {α} (p : α → Bool) :
    ∀ (l1 l2 : List α), l1.find? p = none → (l1 ++ l2).find? p = l2.find? p := by
  intro l1
  induction l1 with
  | nil => intro l2 _; rfl
  | cons a t ih =>
      intro l2 h
      obtain ⟨hpa, ht⟩ := find?_cons_eq_none p a t h
      simp [List.find?, hpa, ih l2 ht]

lemma redisGet_redisDelete_self (c : List (String × CacheEntry)) (k : String) :
    redisGet (redisDelete c k) k = none := by
  unfold redisGet redisDelete
  rw [List.find?_eq_none.mpr]
  · rfl
  · intro x hx
    have := (List.mem_filter.mp hx).2
    simpa using this

end SecretService

namespace SecretService

/-! ### Concrete scenarios used by counterexamples and witnesses -/

/-- The empty system state. -/
def st0 : SysState := ⟨[], [], []⟩

/-- State right after `POST /secret` of payload `hello` with key `k`:
the store holds the row and the cache mirrors the plaintext. -/
def stAfterCreate : SysState := (create_secret st0 "k" 1 "hello" none none 0 "ip").2

end SecretService

namespace SecretService

/-- Claim C1.  The code violates at-most-once consumption: a cache-path read
(`app/main.py` lines 98-102) evicts the Redis entry but never sets
`is_accessed` on the store row, so the immediately following read succeeds
again via the store path.  This theorem evaluates the code at the failing
input: both consecutive reads of the same key return the plaintext. -/
theorem C1_double_read_code_bug :
    (read_secret stAfterCreate "k" 0 "ip").1 = Except.ok "hello" ∧
    (read_secret (read_secret stAfterCreate "k" 0 "ip").2 "k" 0 "ip").1 =
      Except.ok "hello" := by
  exact ⟨rfl, rfl⟩

end SecretService

namespace SecretService

/-- An unexpired-at-creation secret row that is expired at read time 10. -/
def rowC3 : SecretRec :=
  { id := 1, secret_key := "k", encrypted_secret := create_access_token "v"
    passphrase_hash := none, expires_at := some 5, is_accessed := 0, is_deleted := 0 }

/-- Store holds only `rowC3`; cache is empty (store-path read). -/
def stC3 : SysState := ⟨[rowC3], [], []⟩

/-- Claim C3, counterexample.  An expired store-path read does return 404,
but its response detail is `Secret has expired`, while a key that never
existed yields `Secret not found or already accessed`: the two responses
differ, so the expired case is distinguishable from the absent case,
refuting the claim as stated. -/
theorem C3_counterexample :
    (read_secret stC3 "k" 10 "ip").1 = Except.error (404, "Secret has expired") ∧
    (read_secret stC3 "absent" 10 "ip").1 =
      Except.error (404, "Secret not found or already accessed") ∧
    ("Secret has expired" : String) ≠ "Secret not found or already accessed" := by
  refine ⟨rfl, rfl, by decide⟩

/-- Claim C3, amended.  Every store-path read (no cache entry) of a secret
whose expiry is in the past fails with status 404 and detail
`Secret has expired`, leaving the state unchanged; the status matches the
absent-key case but the detail string differs. -/
theorem C3_expired_store_read_404 (st : SysState) (k : String) (now : Int)
    (ip : String) (s : SecretRec)
    (hmiss : redisGet st.cache k = none)
    (hfind : fetchActive st.secrets k = some s)
    (hexp : isExpired s.expires_at now = true) :
    read_secret st k now ip = (Except.error (404, "Secret has expired"), st) := by
  simp [read_secret, hmiss, hfind, hexp]

/-- Witness for C3: the amended theorem applied to the concrete expired
secret `rowC3` at time 10. -/
theorem C3_witness :
    read_secret stC3 "k" 10 "ip" = (Except.error (404, "Secret has expired"), stC3) :=
  C3_expired_store_read_404 stC3 "k" 10 "ip" rowC3 rfl rfl (by decide)

/-- Cache holding the plaintext of key `k`; empty store and audit log. -/
def stC4 : SysState := ⟨[], [("k", ⟨"hello", none, none⟩)], []⟩

/-- Claim C4, counterexample.  A cache-path read returns the plaintext but
appends no audit entry at all (`app/main.py` lines 98-102 return before any
`SecretLog` insert): starting from an empty log, the log is still empty
after the successful cached read, refuting the claimed `read` audit entry. -/
theorem C4_counterexample :
    (read_secret stC4 "k" 0 "ip").1 = Except.ok "hello" ∧
    (read_secret stC4 "k" 0 "ip").2.logs = [] := by
  exact ⟨rfl, rfl⟩

/-- Claim C4, amended.  Every read served by the cache returns the cached
plaintext and leaves the audit log and the durable store untouched; only
the cache entry itself is evicted.  Audit `read` entries are written by the
store path alone. -/
theorem C4_cache_read_unaudited (st : SysState) (k : String) (now : Int)
    (ip : String) (e : CacheEntry)
    (hhit : redisGet st.cache k = some e) :
    (read_secret st k now ip).1 = Except.ok e.secret ∧
    (read_secret st k now ip).2.logs = st.logs ∧
    (read_secret st k now ip).2.secrets = st.secrets := by
  simp [read_secret, hhit]

/-- Witness for C4: the amended theorem applied to the concrete cached
state `stC4`. -/
theorem C4_witness :
    (read_secret stC4 "k" 0 "ip").1 = Except.ok "hello" ∧
    (read_secret stC4 "k" 0 "ip").2.logs = stC4.logs ∧
    (read_secret stC4 "k" 0 "ip").2.secrets = stC4.secrets :=
  C4_cache_read_unaudited stC4 "k" 0 "ip" ⟨"hello", none, none⟩ rfl

/-- A passphrase-protected secret row. -/
def rowC5 : SecretRec :=
  { id := 1, secret_key := "k", encrypted_secret := create_access_token "v"
    passphrase_hash := some (get_password_hash "p1"), expires_at := none
    is_accessed := 0, is_deleted := 0 }

/-- Store holds only the passphrase-protected `rowC5`; empty log. -/
def stC5 : SysState := ⟨[rowC5], [], []⟩

/-- Claim C5, counterexample.  A delete with a wrong passphrase fails with
403 as claimed, but `app/main.py` raises at line 154 before any `SecretLog`
insert: starting from an empty audit log, the log is still empty after the
failed attempt, refuting the claimed `delete` audit entry. -/
theorem C5_counterexample :
    (delete_secret stC5 "k" (some "wrong") "ip").1 =
      Except.error (403, "Invalid passphrase") ∧
    (delete_secret stC5 "k" (some "wrong") "ip").2.logs = [] := by
  exact ⟨rfl, rfl⟩

/-- Claim C5, amended.  Every delete of an existing non-deleted secret with
a (truthy) passphrase hash and a failing passphrase verification fails with
Forbidden (403) and appends no audit entry; the store rows are also left
unchanged (only the unconditional cache eviction happens). -/
theorem C5_wrong_passphrase_403_unaudited (st : SysState) (k : String)
    (p : Option String) (ip : String) (s : SecretRec)
    (hfind : fetchNonDeleted st.secrets k = some s)
    (hhash : truthyOptStr s.passphrase_hash = true)
    (hver : verify_password p (s.passphrase_hash.getD "") = false) :
    (delete_secret st k p ip).1 = Except.error (403, "Invalid passphrase") ∧
    (delete_secret st k p ip).2.logs = st.logs ∧
    (delete_secret st k p ip).2.secrets = st.secrets := by
  simp [delete_secret, hfind, hhash, hver]

/-- Witness for C5: the amended theorem applied to `rowC5` with the wrong
passphrase `wrong` against stored hash of `p1`. -/
theorem C5_witness :
    (delete_secret stC5 "k" (some "wrong") "ip").1 =
      Except.error (403, "Invalid passphrase") ∧
    (delete_secret stC5 "k" (some "wrong") "ip").2.logs = stC5.logs ∧
    (delete_secret stC5 "k" (some "wrong") "ip").2.secrets = stC5.secrets :=
  C5_wrong_passphrase_403_unaudited stC5 "k" (some "wrong") "ip" rowC5 rfl (by decide)
    (by decide)

end SecretService

namespace SecretService

/-- Claim C8.  Decryption inverts encryption for every payload, and a create
followed by a first store-path read of the returned key (the cache entry
having been evicted, e.g. by its 5-minute Redis TTL) returns exactly the
created secret.  `hfresh` is the store's unique-key guarantee for the fresh
UUID. -/
theorem C8_roundtrip_create_read (st : SysState) (k : String) (newId : Nat)
    (secret : String) (passphrase : Option String) (now now' : Int)
    (ip ip' : String)
    (hfresh : ∀ r ∈ st.secrets, r.secret_key ≠ k) :
    (∀ x : String, jwt_decode_secret (create_access_token x) = x) ∧
    (read_secret
        { (create_secret st k newId secret passphrase none now ip).2 with
            cache :=
              redisDelete
                (create_secret st k newId secret passphrase none now ip).2.cache k }
        k now' ip').1 = Except.ok secret := by
  constructor
  · intro x; rfl
  · have hnone : st.secrets.find? (activeP k) = none := by
      apply List.find?_eq_none.mpr
      intro r hr
      have hne : r.secret_key ≠ k := hfresh r hr
      simp [activeP, hne]
    have hca :
        fetchActive
          ((create_secret st k newId secret passphrase none now ip).2.secrets) k
          = some (createdRow k newId secret passphrase none now) := by
      show fetchActive
          (st.secrets ++ [createdRow k newId secret passphrase none now]) k = _
      unfold fetchActive
      rw [find?_append_of_none _ _ _ hnone]
      simp [List.find?, activeP, createdRow]
    simp [read_secret, redisGet_redisDelete_self, hca, createdRow, computeExpiry,
          isExpired, jwt_decode_secret, create_access_token]

/-- Witness for C8: round trip at `abc`, and create-then-store-read of
`hello` from the empty state. -/
theorem C8_witness :
    jwt_decode_secret (create_access_token "abc") = "abc" ∧
    (read_secret
        { (create_secret st0 "k" 1 "hello" none none 0 "ip").2 with
            cache :=
              redisDelete (create_secret st0 "k" 1 "hello" none none 0 "ip").2.cache
                "k" }
        "k" 5 "ip2").1 = Except.ok "hello" :=
  ⟨(C8_roundtrip_create_read st0 "k" 1 "hello" none 0 5 "ip" "ip2"
      (fun r hr => absurd hr (by simp [st0]))).1 "abc",
   (C8_roundtrip_create_read st0 "k" 1 "hello" none 0 5 "ip" "ip2"
      (fun r hr => absurd hr (by simp [st0]))).2⟩

end SecretService

namespace SecretService

/-- Claim C9, counterexample.  The claim says only strictly positive
`ttl_seconds` yield an expiry; but a create with `ttl_seconds = -5` at time
100 stores `expires_at = 95` (the truthiness test `if secret_data.ttl_seconds`
lets every nonzero integer through), although `-5` is not strictly positive. -/
theorem C9_counterexample :
    ((create_secret st0 "k" 1 "s" none (some (-5)) 100 "ip").2.secrets.map
        SecretRec.expires_at) = [some 95] ∧ ¬ (0 < (-5 : Int)) := by
  exact ⟨rfl, by decide⟩

/-- Claim C9, amended.  The created row has no expiry exactly when
`ttl_seconds` is absent or equal to 0 (truthiness, not presence), and every
nonzero `ttl_seconds = n` — positive or negative — yields the expiry
`now + n`. -/
theorem C9_ttl_truthiness (st : SysState) (k : String) (newId : Nat)
    (secret : String) (passphrase : Option String) (ttl : Option Int)
    (now : Int) (ip : String) :
    (((create_secret st k newId secret passphrase ttl now ip).2.secrets.getLast?).map
        SecretRec.expires_at = some none ↔ ttl = none ∨ ttl = some 0) ∧
    (∀ n : Int, ttl = some n → n ≠ 0 →
      ((create_secret st k newId secret passphrase ttl now ip).2.secrets.getLast?).map
        SecretRec.expires_at = some (some (now + n))) := by
  have hlast :
      (create_secret st k newId secret passphrase ttl now ip).2.secrets.getLast?
        = some (createdRow k newId secret passphrase ttl now) := by
    show (st.secrets ++ [createdRow k newId secret passphrase ttl now]).getLast? = _
    simp
  constructor
  · rw [hlast]
    cases ttl with
    | none => simp [createdRow, computeExpiry]
    | some n =>
        by_cases hn : n = 0 <;> simp [createdRow, computeExpiry, hn]
  · intro n hn hne
    subst hn
    rw [hlast]
    simp [createdRow, computeExpiry, hne]

/-- Witness for C9: a create with `ttl_seconds = 3` at time 10 stores the
expiry 13. -/
theorem C9_witness :
    ((create_secret st0 "k" 1 "s" none (some 3) 10 "ip").2.secrets.getLast?).map
      SecretRec.expires_at = some (some 13) :=
  (C9_ttl_truthiness st0 "k" 1 "s" none (some 3) 10 "ip").2 3 rfl (by decide)

/-- Claim C10.  A store-path read (no cache entry for the key) that does not
succeed — key absent, already accessed, already deleted, or expired — returns
the whole state unchanged: no row is mutated, no audit entry is appended,
and the cache is untouched. -/
theorem C10_failed_store_read_pure (st : SysState) (k : String) (now : Int)
    (ip : String)
    (hmiss : redisGet st.cache k = none)
    (hfail : ∀ x : String, (read_secret st k now ip).1 ≠ Except.ok x) :
    (read_secret st k now ip).2 = st := by
  cases hfa : fetchActive st.secrets k with
  | none => simp [read_secret, hmiss, hfa]
  | some s =>
      cases hexp : isExpired s.expires_at now with
      | true => simp [read_secret, hmiss, hfa, hexp]
      | false =>
          exact absurd (by simp [read_secret, hmiss, hfa, hexp])
            (hfail (jwt_decode_secret s.encrypted_secret))

/-- Witness for C10: reading an absent key in the empty state leaves the
state unchanged. -/
theorem C10_witness : (read_secret st0 "nope" 0 "ip").2 = st0 :=
  C10_failed_store_read_pure st0 "nope" 0 "ip" rfl
    (fun x h => by simp [read_secret, redisGet, fetchActive, st0, List.find?] at h)

end SecretService

namespace SecretService

/-! ### Invariant machinery for the lifecycle theorems -/

lemma redisGet_filter_none (c : List (String × CacheEntry))
    (q : String × CacheEntry → Bool) (k : String)
    (h : redisGet c k = none) : redisGet (c.filter q) k = none := by
  unfold redisGet at *
  rw [List.find?_eq_none.mpr]
  · rfl
  · intro x hx
    exact List.find?_eq_none.mp (by
      cases hfind : c.find? (fun p => p.1 == k) with
      | none => rfl
      | some v => simp [hfind] at h) x (List.mem_filter.mp hx).1

lemma fetchActive_update_none (l : List SecretRec) (s' : SecretRec) (k : String)
    (h : fetchActive l k = none) (hs' : activeP k s' = false) :
    fetchActive (updateSecret l s') k = none := by
  unfold fetchActive updateSecret at *
  apply List.find?_eq_none.mpr
  intro y hy
  obtain ⟨x, hx, hxy⟩ := List.mem_map.mp hy
  by_cases hb : (x.id == s'.id) = true
  · rw [if_pos hb] at hxy
    subst hxy
    simp [hs']
  · rw [if_neg hb] at hxy
    subst hxy
    exact List.find?_eq_none.mp h x hx

lemma fetchActive_append_singleton_none (l : List SecretRec) (r : SecretRec)
    (k : String) (h : fetchActive l k = none) (hr : activeP k r = false) :
    fetchActive (l ++ [r]) k = none := by
  unfold fetchActive at *
  rw [find?_append_of_none _ _ _ h]
  simp [List.find?, hr]

/-- Shape of the read-path state change on the store side: either nothing,
or the fetched active row marked accessed. -/
lemma read_secret_secrets_cases (st : SysState) (k : String) (now : Int)
    (ip : String) :
    (read_secret st k now ip).2.secrets = st.secrets ∨
    ∃ s, fetchActive st.secrets k = some s ∧ activeP k s = true ∧
      (read_secret st k now ip).2.secrets =
        updateSecret st.secrets { s with is_accessed := 1 } := by
  unfold read_secret
  cases hrg : redisGet st.cache k with
  | some e => simp
  | none =>
      cases hfa : fetchActive st.secrets k with
      | none => simp
      | some s =>
          cases hexp : isExpired s.expires_at now with
          | true => simp [hexp]
          | false =>
              right
              exact ⟨s, rfl, List.find?_some hfa, by simp [hexp]⟩

/-- Shape of the read-path state change on the cache side. -/
lemma read_secret_cache_cases (st : SysState) (k : String) (now : Int)
    (ip : String) :
    (read_secret st k now ip).2.cache = st.cache ∨
    (read_secret st k now ip).2.cache = redisDelete st.cache k := by
  unfold read_secret
  cases hrg : redisGet st.cache k with
  | some e => simp
  | none =>
      cases hfa : fetchActive st.secrets k with
      | none => simp
      | some s => cases hexp : isExpired s.expires_at now <;> simp [hexp]

/-- Shape of the delete-path state change on the store side. -/
lemma delete_secret_secrets_cases (st : SysState) (k : String)
    (p : Option String) (ip : String) :
    (delete_secret st k p ip).2.secrets = st.secrets ∨
    ∃ s, fetchNonDeleted st.secrets k = some s ∧ nonDeletedP k s = true ∧
      (delete_secret st k p ip).2.secrets =
        updateSecret st.secrets { s with is_deleted := 1 } := by
  unfold delete_secret
  cases hfd : fetchNonDeleted st.secrets k with
  | none => simp [hfd]
  | some s =>
      cases hpp : (truthyOptStr s.passphrase_hash &&
          !(verify_password p (s.passphrase_hash.getD ""))) with
      | true => simp [hfd, hpp]
      | false =>
          right
          exact ⟨s, rfl, List.find?_some hfd, by simp [hfd, hpp]⟩

/-- The delete path always evicts the key from the cache. -/
lemma delete_secret_cache (st : SysState) (k : String) (p : Option String)
    (ip : String) :
    (delete_secret st k p ip).2.cache = redisDelete st.cache k := by
  unfold delete_secret
  cases hfd : fetchNonDeleted st.secrets k with
  | none => simp [hfd]
  | some s =>
      cases hpp : (truthyOptStr s.passphrase_hash &&
          !(verify_password p (s.passphrase_hash.getD ""))) <;> simp [hfd, hpp]

/-- One request preserves `readGone` unless it re-creates the very key. -/
lemma readGone_preserved (st : SysState) (k : String) (op : Op)
    (h : readGone st k) (hop : opCreatesKey op k = false) :
    readGone (step st op) k := by
  obtain ⟨hc, hs⟩ := h
  cases op with
  | create k2 newId secret passphrase ttl now ip =>
      have hne : (k2 == k) = false := hop
      constructor
      · show redisGet (redisSetex st.cache k2 _) k = none
        unfold redisGet redisSetex redisDelete
        simp only [List.find?, hne]
        exact redisGet_filter_none st.cache _ k hc
      · exact fetchActive_append_singleton_none _ _ _ hs
          (by simp [activeP, createdRow, hne])
  | read k2 now ip =>
      constructor
      · rcases read_secret_cache_cases st k2 now ip with heq | heq
        · rw [show (step st (Op.read k2 now ip)).cache =
              (read_secret st k2 now ip).2.cache from rfl, heq]; exact hc
        · rw [show (step st (Op.read k2 now ip)).cache =
              (read_secret st k2 now ip).2.cache from rfl, heq]
          exact redisGet_filter_none st.cache _ k hc
      · rcases read_secret_secrets_cases st k2 now ip with heq | ⟨s, _, _, heq⟩
        · rw [show (step st (Op.read k2 now ip)).secrets =
              (read_secret st k2 now ip).2.secrets from rfl, heq]; exact hs
        · rw [show (step st (Op.read k2 now ip)).secrets =
              (read_secret st k2 now ip).2.secrets from rfl, heq]
          exact fetchActive_update_none _ _ _ hs (by simp [activeP])
  | delete k2 p ip =>
      constructor
      · rw [show (step st (Op.delete k2 p ip)).cache =
            (delete_secret st k2 p ip).2.cache from rfl,
          delete_secret_cache st k2 p ip]
        exact redisGet_filter_none st.cache _ k hc
      · rcases delete_secret_secrets_cases st k2 p ip with heq | ⟨s, _, _, heq⟩
        · rw [show (step st (Op.delete k2 p ip)).secrets =
              (delete_secret st k2 p ip).2.secrets from rfl, heq]; exact hs
        · rw [show (step st (Op.delete k2 p ip)).secrets =
              (delete_secret st k2 p ip).2.secrets from rfl, heq]
          exact fetchActive_update_none _ _ _ hs (by simp [activeP])

/-- Stability: `readGone` is preserved by any sequence of requests that does not
re-create the key. -/
lemma readGone_run (k : String) (ops : List Op) :
    ∀ st : SysState, readGone st k →
      (∀ op ∈ ops, opCreatesKey op k = false) → readGone (run st ops) k := by
  induction ops with
  | nil => intro st h _; exact h
  | cons op rest ih =>
      intro st h hops
      exact ih (step st op)
        (readGone_preserved st k op h (hops op (by simp)))
        (fun o ho => hops o (by simp [ho]))

/-- A successful delete establishes `readGone` for its key (the store's
unique index on `secret_key` is assumed as `uniqueKeys`). -/
lemma delete_ok_readGone (st : SysState) (k : String) (p : Option String)
    (ip : String) (hkeys : uniqueKeys st.secrets)
    (hok : (delete_secret st k p ip).1 = Except.ok "secret_deleted") :
    readGone (delete_secret st k p ip).2 k := by
  constructor
  · rw [delete_secret_cache st k p ip]
    exact redisGet_redisDelete_self st.cache k
  · cases hfd : fetchNonDeleted st.secrets k with
    | none =>
        exfalso
        unfold delete_secret at hok
        simp [hfd] at hok
    | some s =>
        cases hpp : (truthyOptStr s.passphrase_hash &&
            !(verify_password p (s.passphrase_hash.getD ""))) with
        | true =>
            exfalso
            unfold delete_secret at hok
            simp [hfd, hpp] at hok
        | false =>
            have heq : (delete_secret st k p ip).2.secrets
                = updateSecret st.secrets { s with is_deleted := 1 } := by
              unfold delete_secret
              simp [hfd, hpp]
            rw [heq]
            have hsmem : s ∈ st.secrets := List.mem_of_find?_eq_some hfd
            have hnd : nonDeletedP k s = true := List.find?_some hfd
            have hskey : s.secret_key = k := by
              simp [nonDeletedP] at hnd; exact hnd.1
            unfold fetchActive updateSecret
            apply List.find?_eq_none.mpr
            intro y hy
            obtain ⟨x, hx, hxy⟩ := List.mem_map.mp hy
            by_cases hb : (x.id == s.id) = true
            · rw [if_pos hb] at hxy
              subst hxy
              simp [activeP]
            · rw [if_neg hb] at hxy
              subst hxy
              intro hcontra
              have hxkey : x.secret_key = k := by
                simp [activeP] at hcontra
                exact hcontra.1.1
              by_cases hxs : x = s
              · subst hxs; simp at hb
              · have := (List.Pairwise.forall (fun a b hab => hab.symm) hkeys)
                  hx hsmem hxs
                exact this (hxkey.trans hskey.symm)

end SecretService

namespace SecretService

/-- Claim C2.  After a successful delete of a key, every subsequent read of
that key — after any further traffic that does not re-create the very same
key (fresh UUIDs never collide, and the store's unique index would reject a
duplicate) — fails with 404, whether the secret was still cached or still
unread at delete time. -/
theorem C2_read_after_delete_404 (st : SysState) (k : String)
    (p : Option String) (ip : String) (ops : List Op) (now' : Int)
    (ip' : String)
    (hkeys : uniqueKeys st.secrets)
    (hok : (delete_secret st k p ip).1 = Except.ok "secret_deleted")
    (hfresh : ∀ op ∈ ops, opCreatesKey op k = false) :
    (read_secret (run (delete_secret st k p ip).2 ops) k now' ip').1 =
      Except.error (404, "Secret not found or already accessed") := by
  have hgone := readGone_run k ops (delete_secret st k p ip).2
    (delete_ok_readGone st k p ip hkeys hok) hfresh
  unfold read_secret
  rw [hgone.1, hgone.2]

/-- A still-cached, never-read secret row used by the C2 witness. -/
def stC2 : SysState :=
  ⟨[{ id := 1, secret_key := "k", encrypted_secret := create_access_token "v"
      passphrase_hash := none, expires_at := none
      is_accessed := 0, is_deleted := 0 }],
   [("k", ⟨"v", none, none⟩)], []⟩

/-- Witness for C2: delete the cached, unread secret `k`, then read it. -/
theorem C2_witness :
    (read_secret (run (delete_secret stC2 "k" none "ip").2 []) "k" 7 "ip2").1 =
      Except.error (404, "Secret not found or already accessed") :=
  C2_read_after_delete_404 stC2 "k" none "ip" [] 7 "ip2"
    (by simp [uniqueKeys, stC2]) rfl (by simp)

end SecretService

namespace SecretService

/-- Position `i` of store `l` keeps its row's lifecycle flags at least as
high in store `l2` (flags never drop back from 1 to 0). -/
def flagsMono (l l2 : List SecretRec) (i : Nat) (h : i < l.length) : Prop :=
  ∃ h' : i < l2.length,
    (l.get ⟨i, h⟩).is_accessed ≤ (l2.get ⟨i, h'⟩).is_accessed ∧
    (l.get ⟨i, h⟩).is_deleted ≤ (l2.get ⟨i, h'⟩).is_deleted

lemma flagsMono_refl (l : List SecretRec) (i : Nat) (h : i < l.length) :
    flagsMono l l i h :=
  ⟨h, le_refl _, le_refl _⟩

lemma flagsMono_append (l : List SecretRec) (r : SecretRec) (i : Nat)
    (h : i < l.length) : flagsMono l (l ++ [r]) i h := by
  have h' : i < (l ++ [r]).length := by simp; omega
  have hget : (l ++ [r]).get ⟨i, h'⟩ = l.get ⟨i, h⟩ := by
    rw [List.get_eq_getElem, List.get_eq_getElem, List.getElem_append_left h]
  exact ⟨h', by rw [hget], by rw [hget]⟩

lemma flagsMono_update (l : List SecretRec)
    (hids : l.Pairwise (fun a b => a.id ≠ b.id))
    (s s' : SecretRec) (hs : s ∈ l) (hid : s'.id = s.id)
    (hacc : s.is_accessed ≤ s'.is_accessed)
    (hdel : s.is_deleted ≤ s'.is_deleted)
    (i : Nat) (h : i < l.length) : flagsMono l (updateSecret l s') i h := by
  have h' : i < (updateSecret l s').length := by simp [updateSecret]; omega
  have hget : (updateSecret l s').get ⟨i, h'⟩
      = if (l.get ⟨i, h⟩).id == s'.id then s' else l.get ⟨i, h⟩ := by
    simp [updateSecret, List.get_eq_getElem]
  refine ⟨h', ?_⟩
  rw [hget]
  by_cases hb : ((l.get ⟨i, h⟩).id == s'.id) = true
  · have hxid : (l.get ⟨i, h⟩).id = s.id := by
      have hb2 : (l.get ⟨i, h⟩).id = s'.id := by simpa using hb
      rw [hb2, hid]
    have hxs : l.get ⟨i, h⟩ = s := by
      by_cases hxseq : l.get ⟨i, h⟩ = s
      · exact hxseq
      · exact absurd hxid
          ((List.Pairwise.forall (fun a b hab => hab.symm) hids)
            (l.get_mem i h) hs hxseq)
    rw [if_pos hb, hxs]
    exact ⟨hacc, hdel⟩
  · rw [if_neg hb]
    exact ⟨le_refl _, le_refl _⟩

/-- Claim C6.  The `is_accessed` and `is_deleted` flags are monotonic: no
single request (create, read or delete) ever lowers either flag of any
existing store row; `uniqueIds` is the primary-key uniqueness of `id`. -/
theorem C6_flags_monotonic (st : SysState) (op : Op) (i : Nat)
    (hids : uniqueIds st.secrets) (h : i < st.secrets.length) :
    flagsMono st.secrets (step st op).secrets i h := by
  cases op with
  | create k newId secret passphrase ttl now ip =>
      have heq : (step st (Op.create k newId secret passphrase ttl now ip)).secrets
          = st.secrets ++ [createdRow k newId secret passphrase ttl now] := rfl
      rw [heq]
      exact flagsMono_append _ _ _ _
  | read k now ip =>
      rcases read_secret_secrets_cases st k now ip with heq | ⟨s, hfa, hact, heq⟩
      · rw [show (step st (Op.read k now ip)).secrets
            = (read_secret st k now ip).2.secrets from rfl, heq]
        exact flagsMono_refl _ _ _
      · rw [show (step st (Op.read k now ip)).secrets
            = (read_secret st k now ip).2.secrets from rfl, heq]
        have hmem : s ∈ st.secrets := List.mem_of_find?_eq_some hfa
        have hacc0 : s.is_accessed = 0 := by
          simp [activeP] at hact; exact hact.1.2
        exact flagsMono_update st.secrets hids s { s with is_accessed := 1 }
          hmem rfl (by simp [hacc0]) (le_refl _) i h
  | delete k p ip =>
      rcases delete_secret_secrets_cases st k p ip with heq | ⟨s, hfd, hnd, heq⟩
      · rw [show (step st (Op.delete k p ip)).secrets
            = (delete_secret st k p ip).2.secrets from rfl, heq]
        exact flagsMono_refl _ _ _
      · rw [show (step st (Op.delete k p ip)).secrets
            = (delete_secret st k p ip).2.secrets from rfl, heq]
        have hmem : s ∈ st.secrets := List.mem_of_find?_eq_some hfd
        have hdel0 : s.is_deleted = 0 := by
          simp [nonDeletedP] at hnd; exact hnd.2
        exact flagsMono_update st.secrets hids s { s with is_deleted := 1 }
          hmem rfl (le_refl _) (by simp [hdel0]) i h

/-- A one-row state used by the C6 witness. -/
def stC6 : SysState :=
  ⟨[{ id := 1, secret_key := "k", encrypted_secret := create_access_token "v"
      passphrase_hash := none, expires_at := none
      is_accessed := 0, is_deleted := 0 }], [], []⟩

/-- Witness for C6: a store-path read of the single row of `stC6` keeps its
flags monotone. -/
theorem C6_witness :
    flagsMono stC6.secrets (step stC6 (Op.read "k" 0 "ip")).secrets 0
      (by simp [stC6]) :=
  C6_flags_monotonic stC6 (Op.read "k" 0 "ip") 0
    (by simp [uniqueIds, stC6]) (by simp [stC6])

end SecretService
